import Mathlib

/-!
# pg_unique_slug: a shallow embedding of `pg_unique_slug.c`

The C file defines three functions, `generate_random_slug`, `slug_exists` and
`gen_unique_slug`.  They are embedded here as pure functions over an explicit
world:

* the host primitives the C file calls but does not define (`quote_ident`,
  `quote_literal_cstr`, `pg_strong_random`, `SPI_connect`, `SPI_execute`) are
  fields of an environment `Env`;
* every call of a storage primitive is appended to `World.trace`, and the
  numbers of `pg_strong_random` and `SPI_execute` calls are counted;
* `ereport(ERROR, ...)` leaves the function at once: it is the outcome
  `Outcome.error`, carrying the world reached at that point;
* array accesses are checked: an access outside the array is the outcome
  `Outcome.outOfBounds`;
* the loop `while (true)` takes a number of iterations it may run; when that
  number is used up and the loop has not been left, the outcome is
  `Outcome.running`.
-/

namespace PgUniqueSlug

/-! ## Data model -/

/-- The calls to the storage layer that the C file makes. -/
inductive Event where
  | quote_ident (raw : String)
  | quote_literal_cstr (raw : String)
  | SPI_connect
  | SPI_execute (query : String) (read_only : Bool) (tcount : Nat)
  | SPI_finish
  deriving DecidableEq

/-- The errors raised with `ereport(ERROR, ...)`, one per call site.
`InvalidLength`: "slug_length must be between 1 and 256";
`ConnectFailed`: "SPI_connect failed";
`RandomSourceUnavailable`: "pg_strong_random failed";
`QueryExecutionFailed ret`: "SPI_execute failed: error code ret". -/
inductive Error where
  | InvalidLength
  | ConnectFailed
  | RandomSourceUnavailable
  | QueryExecutionFailed (ret : Int)
  deriving DecidableEq

/-- The observable world: how many random bytes were requested, how many
queries were executed, and the storage calls made so far, oldest first. -/
structure World where
  rnd_calls : Nat
  spi_calls : Nat
  trace : List Event
  deriving DecidableEq

/-- The host primitives.  `pg_strong_random k` is the answer to the `k`-th
request for one byte (`none`: the call returned false).  `SPI_connect` is the
return code of `SPI_connect()`.  `SPI_execute k query read_only tcount` is the
answer to the `k`-th executed query: the return code and the value left in
`SPI_processed`.  `stack` is the indeterminate initial content of the local
array `slug`. -/
structure Env where
  quote_ident : String → String
  quote_literal_cstr : String → String
  pg_strong_random : Nat → Option (Fin 256)
  SPI_connect : Int
  SPI_execute : Nat → String → Bool → Nat → Int × Nat
  stack : Nat → Char

/-- The result of running a piece of the program. -/
inductive Outcome (α : Type) where
  | ok (a : α) (w : World)
  | error (e : Error) (w : World)
  | outOfBounds (w : World)
  | running (w : World)
  deriving DecidableEq

/-- The world an outcome carries. -/
def Outcome.world {α : Type} : Outcome α → World
  | .ok _ w => w
  | .error _ w => w
  | .outOfBounds w => w
  | .running w => w

/-! ## Constants -/

/-- The array `charset[]`: the 52 letters and the terminating NUL byte. -/
def charset : List Char :=
  "ABCDEFGHIJKLMNOPQRSTUVWXYZabcdefghijklmnopqrstuvwxyz".toList ++ [Char.ofNat 0]

/-- The value of `CHARSET_LEN`, that is `sizeof(charset) - 1`. -/
def CHARSET_LEN : Nat := charset.length - 1

/-- The value of `MAX_SLUG_LENGTH`. -/
def MAX_SLUG_LENGTH : Nat := 256

/-- The value of `SPI_OK_CONNECT` in `executor/spi.h`. -/
def SPI_OK_CONNECT : Int := 1

/-- The C string held in a character array: the characters before the first
NUL byte. -/
def cstring (buf : List Char) : String :=
  String.mk (buf.takeWhile (fun c => c != Char.ofNat 0))

/-! ## generate_random_slug -/

/-- The loop `for (int i = 0; i < len; i++)` of `generate_random_slug`, from
index `i` on, allowed `fuel` iterations. -/
def generate_random_slug_loop (env : Env) (len : Int) :
    Nat → Nat → List Char → World → Outcome (List Char)
  | 0, i, slug, w => if (i : Int) < len then .running w else .ok slug w
  | fuel + 1, i, slug, w =>
    if (i : Int) < len then
      let w1 : World := { w with rnd_calls := w.rnd_calls + 1 }
      match env.pg_strong_random w.rnd_calls with
      | none => .error .RandomSourceUnavailable w1
      | some rnd =>
        match charset[rnd.val % CHARSET_LEN]? with
        | none => .outOfBounds w1
        | some c =>
          if i < slug.length then
            generate_random_slug_loop env len fuel (i + 1) (slug.set i c) w1
          else .outOfBounds w1
    else .ok slug w

/-- The function `generate_random_slug(slug, len)`: the loop, run for the
`len` iterations it can take, then the write `slug[len] = 0`. -/
def generate_random_slug (env : Env) (slug : List Char) (len : Int) (w : World) :
    Outcome (List Char) :=
  match generate_random_slug_loop env len len.toNat 0 slug w with
  | .ok slug1 w1 =>
    if 0 ≤ len ∧ len.toNat < slug1.length then
      .ok (slug1.set len.toNat (Char.ofNat 0)) w1
    else .outOfBounds w1
  | o => o

/-! ## slug_exists -/

/-- The text built by `appendStringInfo` from the three quoted parts. -/
def probe_query (table_quoted column_quoted slug_quoted : String) : String :=
  "SELECT 1 FROM " ++ table_quoted ++ " WHERE " ++ column_quoted ++ " = " ++
    slug_quoted ++ " LIMIT 1"

/-- The function `slug_exists(table_quoted, column_quoted, slug, query)`. -/
def slug_exists (env : Env) (table_quoted column_quoted : String)
    (slug : List Char) (w : World) : Outcome Bool :=
  let slug_quoted := env.quote_literal_cstr (cstring slug)
  let query := probe_query table_quoted column_quoted slug_quoted
  let r := env.SPI_execute w.spi_calls query true 1
  let w1 : World :=
    { w with
      spi_calls := w.spi_calls + 1
      trace := w.trace ++
        [Event.quote_literal_cstr (cstring slug), Event.SPI_execute query true 1] }
  if r.1 < 0 then .error (.QueryExecutionFailed r.1) w1
  else .ok (decide (r.2 > 0)) w1

/-! ## gen_unique_slug -/

/-- The loop `while (true)` of `gen_unique_slug`, allowed `fuel` iterations. -/
def gen_unique_slug_loop (env : Env) (table_quoted column_quoted : String) (len : Int) :
    Nat → List Char → World → Outcome (List Char)
  | 0, _, w => .running w
  | fuel + 1, slug, w =>
    match generate_random_slug env slug len w with
    | .ok slug1 w1 =>
      match slug_exists env table_quoted column_quoted slug1 w1 with
      | .ok true w2 => gen_unique_slug_loop env table_quoted column_quoted len fuel slug1 w2
      | .ok false w2 => .ok slug1 w2
      | .error e w2 => .error e w2
      | .outOfBounds w2 => .outOfBounds w2
      | .running w2 => .running w2
    | o => o

/-- The function `gen_unique_slug(tbl, col, len)`, its loop allowed `fuel`
iterations. -/
def gen_unique_slug (env : Env) (fuel : Nat) (tbl col : String) (len : Int) :
    Outcome String :=
  let w0 : World := { rnd_calls := 0, spi_calls := 0, trace := [] }
  if len < 1 ∨ len > (MAX_SLUG_LENGTH : Int) then .error .InvalidLength w0
  else
    let table_quoted := env.quote_ident tbl
    let column_quoted := env.quote_ident col
    let w1 : World :=
      { w0 with trace := [Event.quote_ident tbl, Event.quote_ident col, Event.SPI_connect] }
    if env.SPI_connect ≠ SPI_OK_CONNECT then .error .ConnectFailed w1
    else
      let slug := (List.range (MAX_SLUG_LENGTH + 1)).map env.stack
      match gen_unique_slug_loop env table_quoted column_quoted len fuel slug w1 with
      | .ok slug1 w2 =>
        .ok (cstring slug1) { w2 with trace := w2.trace ++ [Event.SPI_finish] }
      | .error e w2 => .error e w2
      | .outOfBounds w2 => .outOfBounds w2
      | .running w2 => .running w2

/-! ## Specification-side definitions -/

/-- The character that `generate_random_slug` stores for the random byte
`rnd`: `charset[rnd % CHARSET_LEN]`. -/
def letter (rnd : Fin 256) : Char :=
  charset.getD (rnd.val % CHARSET_LEN) (Char.ofNat 0)

/-- The character stored for the answer to the `k`-th request for a random
byte (NUL when that request fails). -/
def letterAt (env : Env) (k : Nat) : Char :=
  match env.pg_strong_random k with
  | some rnd => letter rnd
  | none => Char.ofNat 0

/-- The candidate of `n` characters made from the random bytes number
`c`, `c + 1`, ..., `c + n - 1`. -/
def candidate (env : Env) (n c : Nat) : String :=
  String.mk ((List.range n).map (fun j => letterAt env (c + j)))

/-- The storage calls of one probe of the candidate `cand`. -/
def probe_events (env : Env) (table_quoted column_quoted cand : String) : List Event :=
  [Event.quote_literal_cstr cand,
   Event.SPI_execute (probe_query table_quoted column_quoted (env.quote_literal_cstr cand)) true 1]

/-- The storage calls of `p` successive probes, the first candidate being
made from the random bytes number `c` on, each candidate of `n` characters. -/
def probe_trace (env : Env) (table_quoted column_quoted : String) (n : Nat) :
    Nat → Nat → List Event
  | _, 0 => []
  | c, p + 1 =>
    probe_events env table_quoted column_quoted (candidate env n c) ++
      probe_trace env table_quoted column_quoted n (c + n) p

/-- What holds of the outcome `o` of the loop of `gen_unique_slug` started in
the world `w` with `fuel` iterations allowed, `p` being the number of probes
made. -/
def LoopPost (env : Env) (table_quoted column_quoted : String) (n fuel : Nat) (w : World)
    (o : Outcome (List Char)) : Prop :=
  ∃ p, p ≤ fuel
    ∧ o.world.spi_calls = w.spi_calls + p
    ∧ o.world.trace = w.trace ++ probe_trace env table_quoted column_quoted n w.rnd_calls p
    ∧ (∀ j, j < p * n → (env.pg_strong_random (w.rnd_calls + j)).isSome = true)
    ∧ match o with
      | .ok slug1 w1 =>
        1 ≤ p ∧ w1.rnd_calls = w.rnd_calls + p * n
          ∧ cstring slug1 = candidate env n (w.rnd_calls + (p - 1) * n)
      | .running w1 => p = fuel ∧ w1.rnd_calls = w.rnd_calls + p * n
      | .error e w1 =>
        (e = Error.RandomSourceUnavailable ∧ ∃ d, d < n
            ∧ w1.rnd_calls = w.rnd_calls + p * n + d + 1
            ∧ env.pg_strong_random (w.rnd_calls + p * n + d) = none
            ∧ ∀ j, j < d → (env.pg_strong_random (w.rnd_calls + p * n + j)).isSome = true)
        ∨ (∃ r, e = Error.QueryExecutionFailed r ∧ r < 0 ∧ 1 ≤ p
            ∧ w1.rnd_calls = w.rnd_calls + p * n)
      | .outOfBounds _ => False

/-- The byte values (0 to 255) that `rnd % CHARSET_LEN` sends to the alphabet
index `j`. -/
def preimages (j : Nat) : List Nat :=
  (List.range 256).filter (fun b => b % CHARSET_LEN = j)

/-- The world in which the loop of `gen_unique_slug` starts. -/
def loop_start (tbl col : String) : World :=
  { rnd_calls := 0, spi_calls := 0,
    trace := [Event.quote_ident tbl, Event.quote_ident col, Event.SPI_connect] }

/-- The end of `gen_unique_slug` after its loop: release and return. -/
def finish (o : Outcome (List Char)) : Outcome String :=
  match o with
  | .ok slug1 w2 => .ok (cstring slug1) { w2 with trace := w2.trace ++ [Event.SPI_finish] }
  | .error e w2 => .error e w2
  | .outOfBounds w2 => .outOfBounds w2
  | .running w2 => .running w2


/-- The texts of the queries executed in a trace, oldest first. -/
def executed (t : List Event) : List String :=
  t.filterMap (fun e => match e with
    | Event.SPI_execute q _ _ => some q
    | _ => none)

/-! ## Environments for the examples -/

/-- An environment for the examples: the quoting primitives wrap their
argument in quotes, the random source answers the byte `37 * k mod 256` to
request `k`, the connection succeeds, and the first two probes find a row. -/
def env_demo : Env where
  quote_ident := fun s => "\"" ++ s ++ "\""
  quote_literal_cstr := fun s => "'" ++ s ++ "'"
  pg_strong_random := fun k => some (Fin.ofNat (k * 37))
  SPI_connect := 1
  SPI_execute := fun k _ _ _ => (5, if k < 2 then 1 else 0)
  stack := fun _ => 'x'

/-- An environment in which every probe finds a row. -/
def env_always_exists : Env :=
  { env_demo with SPI_execute := fun _ _ _ _ => (5, 1) }

/-- An environment in which the request number 4 for a random byte fails. -/
def env_random_fails : Env :=
  { env_demo with pg_strong_random := fun k => if k = 4 then none else some 3 }

/-! ## Facts about the constants -/

theorem charset_length : charset.length = 53 := by decide

theorem CHARSET_LEN_eq : CHARSET_LEN = 52 := by decide

theorem charset_index_lt (rnd : Fin 256) : rnd.val % CHARSET_LEN < charset.length := by
  rw [CHARSET_LEN_eq, charset_length]
  have := Nat.mod_lt rnd.val (show 52 > 0 by decide)
  omega

theorem charset_read (rnd : Fin 256) :
    charset[rnd.val % CHARSET_LEN]? = some (letter rnd) := by
  have h := charset_index_lt rnd
  simp [letter, List.getD, List.getElem?_eq_getElem h]


/-! ## The loop of generate_random_slug -/

theorem generate_random_slug_loop_cases (env : Env) (n : Nat) :
    ∀ (fuel i : Nat) (slug : List Char) (w : World),
      i + fuel = n → n ≤ slug.length →
      (∃ slug1, generate_random_slug_loop env (n : Int) fuel i slug w
            = .ok slug1 { w with rnd_calls := w.rnd_calls + fuel }
          ∧ slug1.length = slug.length
          ∧ (∀ j, j < i → slug1[j]? = slug[j]?)
          ∧ (∀ j, j < fuel → slug1[i + j]? = some (letterAt env (w.rnd_calls + j)))
          ∧ (∀ j, j < fuel → (env.pg_strong_random (w.rnd_calls + j)).isSome = true))
      ∨ (∃ d, d < fuel
          ∧ generate_random_slug_loop env (n : Int) fuel i slug w
            = .error .RandomSourceUnavailable { w with rnd_calls := w.rnd_calls + d + 1 }
          ∧ env.pg_strong_random (w.rnd_calls + d) = none
          ∧ (∀ j, j < d → (env.pg_strong_random (w.rnd_calls + j)).isSome = true)) := by
  intro fuel
  induction fuel with
  | zero =>
    intro i slug w hi _
    left
    refine ⟨slug, ?_, rfl, fun _ _ => rfl, ?_, ?_⟩
    · have : ¬ ((i : Int) < (n : Int)) := by omega
      simp [generate_random_slug_loop, this]
    · intro j hj; omega
    · intro j hj; omega
  | succ fuel ih =>
    intro i slug w hi hn
    have hlt : (i : Int) < (n : Int) := by omega
    have hil : i < slug.length := by omega
    cases hr : env.pg_strong_random w.rnd_calls with
    | none =>
      right
      refine ⟨0, by omega, ?_, by simpa using hr, ?_⟩
      · simp [generate_random_slug_loop, hlt, hr]
      · intro j hj; omega
    | some rnd =>
      have hstep : generate_random_slug_loop env (n : Int) (fuel + 1) i slug w
          = generate_random_slug_loop env (n : Int) fuel (i + 1) (slug.set i (letter rnd))
              { w with rnd_calls := w.rnd_calls + 1 } := by
        simp [generate_random_slug_loop, hlt, hr, charset_read, hil]
      rcases ih (i + 1) (slug.set i (letter rnd)) { w with rnd_calls := w.rnd_calls + 1 }
          (by omega) (by simpa using hn) with ⟨slug1, h1, h2, h3, h4, h5⟩ | ⟨d, hd, h1, h2, h3⟩
      · left
        refine ⟨slug1, ?_, ?_, ?_, ?_, ?_⟩
        · rw [hstep, h1]; simp; omega
        · simpa using h2
        · intro j hj
          rw [h3 j (by omega)]
          simp [List.getElem?_set]
          omega
        · intro j hj
          cases j with
          | zero =>
            have := h3 i (by omega)
            simp [List.getElem?_set, hil] at this
            simp [this, letterAt, hr]
          | succ j =>
            have := h4 j (by omega)
            simp at this
            rw [show i + (j + 1) = i + 1 + j by omega, this]
            congr 2; omega
        · intro j hj
          cases j with
          | zero => simp [hr]
          | succ j =>
            have := h5 j (by omega)
            simp at this
            rw [show w.rnd_calls + (j + 1) = w.rnd_calls + 1 + j by omega]
            exact this
      · right
        refine ⟨d + 1, by omega, ?_, ?_, ?_⟩
        · rw [hstep, h1]; simp; omega
        · simp at h2
          rw [show w.rnd_calls + (d + 1) = w.rnd_calls + 1 + d by omega]; exact h2
        · intro j hj
          cases j with
          | zero => simp [hr]
          | succ j =>
            have := h3 j (by omega)
            simp at this
            rw [show w.rnd_calls + (j + 1) = w.rnd_calls + 1 + j by omega]
            exact this


set_option maxRecDepth 100000 in
theorem charset_letters :
    ∀ j, j < 52 → charset.getD j (Char.ofNat 0) ≠ Char.ofNat 0
      ∧ (charset.getD j (Char.ofNat 0)).isAlpha = true
      ∧ charset.getD j (Char.ofNat 0) ∈ charset.take 52 := by
  decide

theorem letter_ne_nul (rnd : Fin 256) : letter rnd ≠ Char.ofNat 0 :=
  (charset_letters (rnd.val % CHARSET_LEN)
    (by rw [CHARSET_LEN_eq]; exact Nat.mod_lt _ (by decide))).1

theorem takeWhile_eq_take {α : Type} (p : α → Bool) :
    ∀ (l : List α) (n : Nat),
      (∀ j, j < n → ∃ x, l[j]? = some x ∧ p x = true) →
      (∃ x, l[n]? = some x ∧ p x = false) →
      l.takeWhile p = l.take n := by
  intro l
  induction l with
  | nil => intro n _ h; simp at h
  | cons a l ih =>
    intro n h1 h2
    cases n with
    | zero =>
      obtain ⟨x, hx, hp⟩ := h2
      simp at hx
      subst hx
      simp [List.takeWhile, hp]
    | succ n =>
      obtain ⟨x, hx, hp⟩ := h1 0 (by omega)
      simp at hx
      subst hx
      simp only [List.takeWhile, hp, List.take_succ_cons]
      congr 1
      apply ih
      · intro j hj
        have := h1 (j + 1) (by omega)
        simpa using this
      · simpa using h2


theorem letterAt_ne_nul (env : Env) (k : Nat)
    (h : (env.pg_strong_random k).isSome = true) : letterAt env k ≠ Char.ofNat 0 := by
  unfold letterAt
  cases hr : env.pg_strong_random k with
  | none => simp [hr] at h
  | some rnd => exact letter_ne_nul rnd

theorem generate_random_slug_cases (env : Env) (n : Nat) (slug : List Char) (w : World)
    (hL : n < slug.length) :
    (∃ slug1, generate_random_slug env slug (n : Int) w
          = .ok slug1 { w with rnd_calls := w.rnd_calls + n }
        ∧ slug1.length = slug.length
        ∧ cstring slug1 = candidate env n w.rnd_calls
        ∧ (∀ j, j < n → (env.pg_strong_random (w.rnd_calls + j)).isSome = true))
    ∨ (∃ d, d < n
        ∧ generate_random_slug env slug (n : Int) w
          = .error .RandomSourceUnavailable { w with rnd_calls := w.rnd_calls + d + 1 }
        ∧ env.pg_strong_random (w.rnd_calls + d) = none
        ∧ (∀ j, j < d → (env.pg_strong_random (w.rnd_calls + j)).isSome = true)) := by
  rcases generate_random_slug_loop_cases env n n 0 slug w (by omega) (by omega)
    with ⟨slug1, h1, h2, _, h4, h5⟩ | ⟨d, hd, h1, h2, h3⟩
  · left
    have hlen : n < slug1.length := by omega
    refine ⟨slug1.set n (Char.ofNat 0), ?_, by simpa using h2, ?_, h5⟩
    · simp [generate_random_slug, h1, hlen]
    · have htw := takeWhile_eq_take (fun c => c != Char.ofNat 0)
        (slug1.set n (Char.ofNat 0)) n
        (by
          intro j hj
          refine ⟨letterAt env (w.rnd_calls + j), ?_, ?_⟩
          · have := h4 j hj
            simp at this
            simp [List.getElem?_set, this]
            omega
          · simpa using letterAt_ne_nul env _ (h5 j hj))
        (by
          refine ⟨Char.ofNat 0, ?_, by simp⟩
          simp [List.getElem?_set, hlen])
      unfold cstring candidate
      rw [htw]
      congr 1
      apply List.ext_getElem?
      intro j
      by_cases hj : j < n
      · have := h4 j hj
        simp at this
        simp [List.getElem?_take, hj, List.getElem?_set, this]
        omega
      · have hge : n ≤ j := by omega
        simp [List.getElem?_take, hj, List.getElem?_eq_none, hge]
  · right
    refine ⟨d, hd, ?_, h2, h3⟩
    simp [generate_random_slug, h1]


/-! ## The loop of gen_unique_slug -/

theorem LoopPost_step (env : Env) (tq cq : String) (n fuel : Nat) (w : World)
    (o : Outcome (List Char))
    (hfirst : ∀ j, j < n → (env.pg_strong_random (w.rnd_calls + j)).isSome = true)
    (h : LoopPost env tq cq n fuel
      { rnd_calls := w.rnd_calls + n, spi_calls := w.spi_calls + 1,
        trace := w.trace ++ probe_events env tq cq (candidate env n w.rnd_calls) } o) :
    LoopPost env tq cq n (fuel + 1) w o := by
  obtain ⟨p, hp, hs, ht, hr, hm⟩ := h
  have hmul : (p + 1) * n = p * n + n := Nat.succ_mul p n
  refine ⟨p + 1, by omega, ?_, ?_, ?_, ?_⟩
  · simp at hs; omega
  · simp at ht; simp [ht, probe_trace]
  · intro j hj
    by_cases hjn : j < n
    · exact hfirst j hjn
    · have := hr (j - n) (by omega)
      simp at this
      rw [show w.rnd_calls + j = w.rnd_calls + n + (j - n) by omega]
      exact this
  · cases o with
    | ok slug1 w1 =>
      obtain ⟨h1, h2, h3⟩ := hm
      refine ⟨by omega, ?_, ?_⟩
      · simp at h2; omega
      · rw [h3]
        congr 1
        obtain ⟨q, rfl⟩ : ∃ q, p = q + 1 := ⟨p - 1, by omega⟩
        simp [Nat.succ_mul]
        omega
    | running w1 =>
      obtain ⟨h1, h2⟩ := hm
      refine ⟨by omega, ?_⟩
      simp at h2; omega
    | error e w1 =>
      rcases hm with ⟨he, d, hd, h1, h2, h3⟩ | ⟨r, he, hr0, h1, h2⟩
      · left
        refine ⟨he, d, hd, ?_, ?_, ?_⟩
        · simp at h1; omega
        · simp at h2
          rw [show w.rnd_calls + (p + 1) * n + d = w.rnd_calls + n + p * n + d by omega]
          exact h2
        · intro j hj
          have := h3 j hj
          simp at this
          rw [show w.rnd_calls + (p + 1) * n + j = w.rnd_calls + n + p * n + j by omega]
          exact this
      · right
        refine ⟨r, he, hr0, by omega, ?_⟩
        simp at h2; omega
    | outOfBounds w1 => exact hm

theorem gen_unique_slug_loop_post (env : Env) (tq cq : String) (n : Nat) :
    ∀ (fuel : Nat) (slug : List Char) (w : World), n < slug.length →
      LoopPost env tq cq n fuel w (gen_unique_slug_loop env tq cq (n : Int) fuel slug w) := by
  intro fuel
  induction fuel with
  | zero =>
    intro slug w _
    refine ⟨0, by omega, ?_, ?_, ?_, ?_⟩ <;>
      simp [gen_unique_slug_loop, Outcome.world, probe_trace]
  | succ fuel ih =>
    intro slug w hL
    rcases generate_random_slug_cases env n slug w hL
      with ⟨slug1, h1, h2, h3, h4⟩ | ⟨d, hd, h1, h2, h3⟩
    · by_cases hneg : (env.SPI_execute w.spi_calls
          (probe_query tq cq (env.quote_literal_cstr (candidate env n w.rnd_calls))) true 1).1 < 0
      · have ho : gen_unique_slug_loop env tq cq (n : Int) (fuel + 1) slug w
            = .error (.QueryExecutionFailed (env.SPI_execute w.spi_calls
                (probe_query tq cq (env.quote_literal_cstr (candidate env n w.rnd_calls)))
                true 1).1)
              { rnd_calls := w.rnd_calls + n, spi_calls := w.spi_calls + 1,
                trace := w.trace ++ probe_events env tq cq (candidate env n w.rnd_calls) } := by
          simp [gen_unique_slug_loop, h1, slug_exists, h3, hneg, probe_events]
        rw [ho]
        refine ⟨1, by omega, ?_, ?_, ?_, ?_⟩
        · simp [Outcome.world]
        · simp [Outcome.world, probe_trace]
        · intro j hj; exact h4 j (by omega)
        · right
          exact ⟨_, rfl, hneg, by omega, by simp⟩
      · by_cases hex : (env.SPI_execute w.spi_calls
            (probe_query tq cq (env.quote_literal_cstr (candidate env n w.rnd_calls))) true 1).2 > 0
        · have ho : gen_unique_slug_loop env tq cq (n : Int) (fuel + 1) slug w
              = gen_unique_slug_loop env tq cq (n : Int) fuel slug1
                { rnd_calls := w.rnd_calls + n, spi_calls := w.spi_calls + 1,
                  trace := w.trace ++ probe_events env tq cq (candidate env n w.rnd_calls) } := by
            simp [gen_unique_slug_loop, h1, slug_exists, h3, hneg, hex, probe_events]
          rw [ho]
          exact LoopPost_step env tq cq n fuel w _ h4 (ih slug1 _ (by omega))
        · have ho : gen_unique_slug_loop env tq cq (n : Int) (fuel + 1) slug w
              = .ok slug1
                { rnd_calls := w.rnd_calls + n, spi_calls := w.spi_calls + 1,
                  trace := w.trace ++ probe_events env tq cq (candidate env n w.rnd_calls) } := by
            simp [gen_unique_slug_loop, h1, slug_exists, h3, hneg, hex, probe_events]
          rw [ho]
          refine ⟨1, by omega, ?_, ?_, ?_, ?_⟩
          · simp [Outcome.world]
          · simp [Outcome.world, probe_trace]
          · intro j hj; exact h4 j (by omega)
          · exact ⟨by omega, by simp, by simpa using h3⟩
    · have ho : gen_unique_slug_loop env tq cq (n : Int) (fuel + 1) slug w
          = .error .RandomSourceUnavailable { w with rnd_calls := w.rnd_calls + d + 1 } := by
        simp [gen_unique_slug_loop, h1]
      rw [ho]
      refine ⟨0, by omega, ?_, ?_, ?_, ?_⟩
      · simp [Outcome.world]
      · simp [Outcome.world, probe_trace]
      · intro j hj; simp at hj
      · left
        exact ⟨rfl, d, hd, by simp, by simpa using h2, by simpa using h3⟩


/-! ## Unfolding gen_unique_slug -/

theorem invalid_length_outcome (env : Env) (fuel : Nat) (tbl col : String)
    (len : Int) (h : len < 1 ∨ 256 < len) :
    gen_unique_slug env fuel tbl col len
      = .error .InvalidLength { rnd_calls := 0, spi_calls := 0, trace := [] } := by
  have h' : len < 1 ∨ (MAX_SLUG_LENGTH : Int) < len := by
    simpa [MAX_SLUG_LENGTH] using h
  simp [gen_unique_slug, h']

theorem gen_unique_slug_connect_failed (env : Env) (fuel : Nat) (tbl col : String) (n : Nat)
    (h1 : 1 ≤ n) (h2 : n ≤ 256) (hc : env.SPI_connect ≠ SPI_OK_CONNECT) :
    gen_unique_slug env fuel tbl col (n : Int)
      = .error .ConnectFailed (loop_start tbl col) := by
  have hv : ¬ ((n : Int) < 1 ∨ (n : Int) > (MAX_SLUG_LENGTH : Int)) := by
    simp only [MAX_SLUG_LENGTH]; omega
  simp only [gen_unique_slug]
  rw [if_neg hv, if_pos hc]
  rfl

theorem gen_unique_slug_connected (env : Env) (fuel : Nat) (tbl col : String) (n : Nat)
    (h1 : 1 ≤ n) (h2 : n ≤ 256) (hc : env.SPI_connect = SPI_OK_CONNECT) :
    gen_unique_slug env fuel tbl col (n : Int)
      = match gen_unique_slug_loop env (env.quote_ident tbl) (env.quote_ident col) (n : Int)
          fuel ((List.range (MAX_SLUG_LENGTH + 1)).map env.stack) (loop_start tbl col) with
        | .ok slug1 w2 =>
          .ok (cstring slug1) { w2 with trace := w2.trace ++ [Event.SPI_finish] }
        | .error e w2 => .error e w2
        | .outOfBounds w2 => .outOfBounds w2
        | .running w2 => .running w2 := by
  have hv : ¬ ((n : Int) < 1 ∨ (n : Int) > (MAX_SLUG_LENGTH : Int)) := by
    simp only [MAX_SLUG_LENGTH]; omega
  simp only [gen_unique_slug]
  rw [if_neg hv, if_neg (not_not.mpr hc)]
  rfl

theorem gen_unique_slug_post (env : Env) (fuel : Nat) (tbl col : String) (n : Nat)
    (h2 : n ≤ 256) :
    LoopPost env (env.quote_ident tbl) (env.quote_ident col) n fuel (loop_start tbl col)
      (gen_unique_slug_loop env (env.quote_ident tbl) (env.quote_ident col) (n : Int)
        fuel ((List.range (MAX_SLUG_LENGTH + 1)).map env.stack) (loop_start tbl col)) :=
  gen_unique_slug_loop_post env _ _ n fuel _ _ (by simp [MAX_SLUG_LENGTH]; omega)

/-! ## The claims -/

/-- C2: a length below 1 or above 256 makes `gen_unique_slug` fail with
`InvalidLength` in the initial world: no storage call was made (no quoting, no
connection, no query, no release) and no random byte was requested. -/
theorem gen_unique_slug_invalid_length (env : Env) (fuel : Nat) (tbl col : String)
    (len : Int) (h : len < 1 ∨ 256 < len) :
    gen_unique_slug env fuel tbl col len
      = .error .InvalidLength { rnd_calls := 0, spi_calls := 0, trace := [] } :=
  invalid_length_outcome env fuel tbl col len h

theorem gen_unique_slug_invalid_length_witness :
    gen_unique_slug env_demo 5 "users" "slug" 257
      = .error .InvalidLength { rnd_calls := 0, spi_calls := 0, trace := [] } :=
  gen_unique_slug_invalid_length env_demo 5 "users" "slug" 257 (by decide)

/-- C6: `slug_exists` fails exactly when the status returned by `SPI_execute`
is negative, the error then being `QueryExecutionFailed` with that status;
otherwise it returns a boolean that is true exactly when `SPI_processed` is
positive. -/
theorem slug_exists_result (env : Env) (tq cq : String) (slug : List Char) (w : World) :
    ((∃ e w1, slug_exists env tq cq slug w = .error e w1)
        ↔ (env.SPI_execute w.spi_calls
            (probe_query tq cq (env.quote_literal_cstr (cstring slug))) true 1).1 < 0)
    ∧ (∀ e w1, slug_exists env tq cq slug w = .error e w1 →
        e = .QueryExecutionFailed (env.SPI_execute w.spi_calls
            (probe_query tq cq (env.quote_literal_cstr (cstring slug))) true 1).1)
    ∧ (¬ (env.SPI_execute w.spi_calls
            (probe_query tq cq (env.quote_literal_cstr (cstring slug))) true 1).1 < 0 →
        ∃ b w1, slug_exists env tq cq slug w = .ok b w1
          ∧ (b = true ↔ 0 < (env.SPI_execute w.spi_calls
            (probe_query tq cq (env.quote_literal_cstr (cstring slug))) true 1).2)) := by
  by_cases hneg : (env.SPI_execute w.spi_calls
      (probe_query tq cq (env.quote_literal_cstr (cstring slug))) true 1).1 < 0
  · refine ⟨?_, ?_, ?_⟩
    · simp [slug_exists, hneg]
    · intro e w1 h
      simp [slug_exists, hneg] at h
      exact h.1.symm
    · intro h; exact absurd hneg h
  · refine ⟨?_, ?_, ?_⟩
    · simp [slug_exists, hneg]
    · intro e w1 h
      simp [slug_exists, hneg] at h
    · intro _
      simp [slug_exists, hneg]


theorem slug_exists_result_witness :
    ∃ b w1, slug_exists env_demo "t" "c" ['a', Char.ofNat 0]
        { rnd_calls := 1, spi_calls := 0, trace := [] } = .ok b w1
      ∧ (b = true ↔ 0 < (env_demo.SPI_execute 0
          (probe_query "t" "c" (env_demo.quote_literal_cstr (cstring ['a', Char.ofNat 0])))
          true 1).2) :=
  (slug_exists_result env_demo "t" "c" ['a', Char.ofNat 0]
    { rnd_calls := 1, spi_calls := 0, trace := [] }).2.2 (by decide)

theorem candidate_length (env : Env) (n c : Nat) : (candidate env n c).length = n := by
  simp [candidate, String.length]

theorem candidate_data_getElem? (env : Env) (n c i : Nat) (hi : i < n) :
    (candidate env n c).data[i]? = some (letterAt env (c + i)) := by
  simp [candidate, hi]

/-- C3: for a length from 1 to 256, a buffer of 257 characters and a random
source that answers the `len` requests made, `generate_random_slug` returns a
C string of exactly `len` characters, each of them one of the first
`CHARSET_LEN` = 52 entries of `charset`, which are the 26 upper-case and the 26
lower-case letters. -/
theorem generate_random_slug_length_alphabet (env : Env) (slug : List Char) (len : Int)
    (w : World) (h1 : 1 ≤ len) (h2 : len ≤ 256)
    (hbuf : slug.length = MAX_SLUG_LENGTH + 1)
    (hrnd : ∀ j, j < len.toNat → (env.pg_strong_random (w.rnd_calls + j)).isSome = true) :
    ∃ slug1 w1, generate_random_slug env slug len w = .ok slug1 w1
      ∧ ((cstring slug1).length : Int) = len
      ∧ (∀ c, c ∈ (cstring slug1).data →
          c ∈ charset.take CHARSET_LEN ∧ c.isAlpha = true)
      ∧ charset.take CHARSET_LEN
          = "ABCDEFGHIJKLMNOPQRSTUVWXYZabcdefghijklmnopqrstuvwxyz".toList
      ∧ CHARSET_LEN = 52 := by
  obtain ⟨n, rfl⟩ := Int.eq_ofNat_of_zero_le (show 0 ≤ len by omega)
  have hn : n < slug.length := by rw [hbuf, MAX_SLUG_LENGTH]; omega
  simp only [Int.toNat_ofNat] at hrnd
  rcases generate_random_slug_cases env n slug w hn
    with ⟨slug1, e1, _, e3, e4⟩ | ⟨d, hd, _, e2, _⟩
  · refine ⟨slug1, _, e1, ?_, ?_, by decide, by decide⟩
    · rw [e3, candidate_length]
    · intro c hc
      rw [e3] at hc
      simp only [candidate, List.mem_map, List.mem_range] at hc
      obtain ⟨j, hj, rfl⟩ := hc
      have hs := e4 j hj
      unfold letterAt
      cases hr : env.pg_strong_random (w.rnd_calls + j) with
      | none => simp [hr] at hs
      | some rnd =>
        have hl := charset_letters (rnd.val % CHARSET_LEN)
          (by rw [CHARSET_LEN_eq]; exact Nat.mod_lt _ (by decide))
        simp only [letter]
        rw [CHARSET_LEN_eq] at hl ⊢
        exact ⟨hl.2.2, hl.2.1⟩
  · have := hrnd d hd
    simp [e2] at this

/-- C10: for a length from 1 to 256 and a buffer of 257 characters, whatever
the random source answers, `generate_random_slug` never makes an access out of
bounds and its loop always runs to its end: every index `rnd % CHARSET_LEN`
is below `CHARSET_LEN`, every index up to `len` is inside the buffer, and the
outcome is neither `outOfBounds` nor `running`.  The same holds of every run of
`gen_unique_slug` with that length. -/
theorem generate_random_slug_in_bounds (env : Env) (slug : List Char) (len : Int)
    (w : World) (h1 : 1 ≤ len) (h2 : len ≤ 256)
    (hbuf : slug.length = MAX_SLUG_LENGTH + 1) :
    (∀ w1, generate_random_slug env slug len w ≠ .outOfBounds w1)
    ∧ (∀ w1, generate_random_slug env slug len w ≠ .running w1)
    ∧ (∀ rnd : Fin 256, rnd.val % CHARSET_LEN < CHARSET_LEN
        ∧ (charset[rnd.val % CHARSET_LEN]?).isSome = true)
    ∧ (∀ i : Nat, (i : Int) ≤ len → i < slug.length)
    ∧ (∀ fuel tbl col w1, gen_unique_slug env fuel tbl col len ≠ .outOfBounds w1) := by
  obtain ⟨n, rfl⟩ := Int.eq_ofNat_of_zero_le (show 0 ≤ len by omega)
  have hn : n < slug.length := by rw [hbuf, MAX_SLUG_LENGTH]; omega
  refine ⟨?_, ?_, ?_, ?_, ?_⟩
  · intro w1
    rcases generate_random_slug_cases env n slug w hn
      with ⟨slug1, e1, _⟩ | ⟨d, _, e1, _⟩ <;> simp [e1]
  · intro w1
    rcases generate_random_slug_cases env n slug w hn
      with ⟨slug1, e1, _⟩ | ⟨d, _, e1, _⟩ <;> simp [e1]
  · intro rnd
    refine ⟨?_, by simp [charset_read]⟩
    rw [CHARSET_LEN_eq]; exact Nat.mod_lt _ (by decide)
  · intro i hi; omega
  · intro fuel tbl col w1
    by_cases hc : env.SPI_connect = SPI_OK_CONNECT
    · have hp := gen_unique_slug_post env fuel tbl col n (by omega)
      rw [gen_unique_slug_connected env fuel tbl col n (by omega) (by omega) hc]
      cases ho : gen_unique_slug_loop env (env.quote_ident tbl) (env.quote_ident col) n
        fuel ((List.range (MAX_SLUG_LENGTH + 1)).map env.stack) (loop_start tbl col) with
      | outOfBounds w2 =>
        rw [ho] at hp
        obtain ⟨p, _, _, _, _, hf⟩ := hp
        exact hf.elim
      | ok a w2 => simp
      | error e w2 => simp
      | running w2 => simp
    · rw [gen_unique_slug_connect_failed env fuel tbl col n (by omega) (by omega) hc]
      simp


theorem generate_random_slug_length_alphabet_witness :
    ∃ slug1 w1, generate_random_slug env_demo (List.replicate 257 'x') 8
        { rnd_calls := 0, spi_calls := 0, trace := [] } = .ok slug1 w1
      ∧ ((cstring slug1).length : Int) = 8
      ∧ (∀ c, c ∈ (cstring slug1).data →
          c ∈ charset.take CHARSET_LEN ∧ c.isAlpha = true)
      ∧ charset.take CHARSET_LEN
          = "ABCDEFGHIJKLMNOPQRSTUVWXYZabcdefghijklmnopqrstuvwxyz".toList
      ∧ CHARSET_LEN = 52 :=
  generate_random_slug_length_alphabet env_demo (List.replicate 257 'x') 8
    { rnd_calls := 0, spi_calls := 0, trace := [] } (by decide) (by decide)
    (by rw [List.length_replicate]; rfl) (fun _ _ => rfl)

theorem generate_random_slug_in_bounds_witness :
    (∀ w1, generate_random_slug env_demo (List.replicate 257 'x') 256
        { rnd_calls := 0, spi_calls := 0, trace := [] } ≠ .outOfBounds w1)
    ∧ (∀ fuel tbl col w1, gen_unique_slug env_demo fuel tbl col 256 ≠ .outOfBounds w1) :=
  have h := generate_random_slug_in_bounds env_demo (List.replicate 257 'x') 256
    { rnd_calls := 0, spi_calls := 0, trace := [] } (by decide) (by decide)
    (by rw [List.length_replicate]; rfl)
  ⟨h.1, h.2.2.2.2⟩

set_option maxRecDepth 1000000 in
theorem preimages_length :
    (∀ j, j < 48 → (preimages j).length = 5)
    ∧ (∀ j, 48 ≤ j → j < 52 → (preimages j).length = 4) := by
  decide

/-- C9: the character stored at position `i` is `charset[rnd % CHARSET_LEN]`
for the byte `rnd` answered to the `i`-th request of the call; and since
`256 % CHARSET_LEN` is not 0 the byte values 0 to 255 are not spread evenly:
each of the indices 0 to 47 (the letters `A` to `v`) has 5 preimages, each of
the indices 48 to 51 (the letters `w` to `z`) has 4. -/
theorem generate_random_slug_modulo_bias (env : Env) (slug : List Char) (len : Int)
    (w : World) (h1 : 1 ≤ len) (h2 : len ≤ 256)
    (hbuf : slug.length = MAX_SLUG_LENGTH + 1)
    (hrnd : ∀ j, j < len.toNat → (env.pg_strong_random (w.rnd_calls + j)).isSome = true) :
    (∃ slug1 w1, generate_random_slug env slug len w = .ok slug1 w1
      ∧ ∀ i rnd, i < len.toNat → env.pg_strong_random (w.rnd_calls + i) = some rnd →
          (cstring slug1).data[i]? = charset[rnd.val % CHARSET_LEN]?)
    ∧ 256 % CHARSET_LEN ≠ 0
    ∧ (∀ j, j < 48 → (preimages j).length = 5)
    ∧ (∀ j, 48 ≤ j → j < 52 → (preimages j).length = 4)
    ∧ charset[0]? = some 'A' ∧ charset[47]? = some 'v'
    ∧ charset[48]? = some 'w' ∧ charset[51]? = some 'z' := by
  refine ⟨?_, by decide, preimages_length.1, preimages_length.2,
    by decide, by decide, by decide, by decide⟩
  obtain ⟨n, rfl⟩ := Int.eq_ofNat_of_zero_le (show 0 ≤ len by omega)
  have hn : n < slug.length := by rw [hbuf, MAX_SLUG_LENGTH]; omega
  simp only [Int.toNat_ofNat] at hrnd ⊢
  rcases generate_random_slug_cases env n slug w hn
    with ⟨slug1, e1, _, e3, _⟩ | ⟨d, hd, _, e2, _⟩
  · refine ⟨slug1, _, e1, ?_⟩
    intro i rnd hi hr
    rw [e3, candidate_data_getElem? env n _ i hi, charset_read]
    simp [letterAt, hr]
  · have := hrnd d hd
    simp [e2] at this

theorem generate_random_slug_modulo_bias_witness :
    (∃ slug1 w1, generate_random_slug env_demo (List.replicate 257 'x') 8
        { rnd_calls := 0, spi_calls := 0, trace := [] } = .ok slug1 w1
      ∧ ∀ i rnd, i < (8 : Int).toNat → env_demo.pg_strong_random (0 + i) = some rnd →
          (cstring slug1).data[i]? = charset[rnd.val % CHARSET_LEN]?)
    ∧ 256 % CHARSET_LEN ≠ 0 :=
  have h := generate_random_slug_modulo_bias env_demo (List.replicate 257 'x') 8
    { rnd_calls := 0, spi_calls := 0, trace := [] } (by decide) (by decide)
    (by rw [List.length_replicate]; rfl) (fun _ _ => rfl)
  ⟨h.1, h.2.1⟩


/-! ## Runs in which the first probes find a row -/

theorem gen_unique_slug_loop_step (env : Env) (tq cq : String) (n fuel : Nat)
    (slug : List Char) (w : World) (hL : n < slug.length)
    (hr : ∀ j, j < n → (env.pg_strong_random (w.rnd_calls + j)).isSome = true) :
    ∃ slug1, slug1.length = slug.length
      ∧ cstring slug1 = candidate env n w.rnd_calls
      ∧ gen_unique_slug_loop env tq cq (n : Int) (fuel + 1) slug w
        = if (env.SPI_execute w.spi_calls
              (probe_query tq cq (env.quote_literal_cstr (candidate env n w.rnd_calls)))
              true 1).1 < 0 then
            .error (.QueryExecutionFailed (env.SPI_execute w.spi_calls
              (probe_query tq cq (env.quote_literal_cstr (candidate env n w.rnd_calls)))
              true 1).1)
              { rnd_calls := w.rnd_calls + n, spi_calls := w.spi_calls + 1,
                trace := w.trace ++ probe_events env tq cq (candidate env n w.rnd_calls) }
          else if 0 < (env.SPI_execute w.spi_calls
              (probe_query tq cq (env.quote_literal_cstr (candidate env n w.rnd_calls)))
              true 1).2 then
            gen_unique_slug_loop env tq cq (n : Int) fuel slug1
              { rnd_calls := w.rnd_calls + n, spi_calls := w.spi_calls + 1,
                trace := w.trace ++ probe_events env tq cq (candidate env n w.rnd_calls) }
          else
            .ok slug1
              { rnd_calls := w.rnd_calls + n, spi_calls := w.spi_calls + 1,
                trace := w.trace ++ probe_events env tq cq (candidate env n w.rnd_calls) } := by
  rcases generate_random_slug_cases env n slug w hL
    with ⟨slug1, h1, h2, h3, _⟩ | ⟨d, hd, _, h2, _⟩
  · refine ⟨slug1, h2, h3, ?_⟩
    by_cases hneg : (env.SPI_execute w.spi_calls
        (probe_query tq cq (env.quote_literal_cstr (candidate env n w.rnd_calls))) true 1).1 < 0
    · simp [gen_unique_slug_loop, h1, slug_exists, h3, hneg, probe_events]
    · by_cases hex : 0 < (env.SPI_execute w.spi_calls
          (probe_query tq cq (env.quote_literal_cstr (candidate env n w.rnd_calls))) true 1).2
      · simp [gen_unique_slug_loop, h1, slug_exists, h3, hneg, hex, probe_events]
      · simp [gen_unique_slug_loop, h1, slug_exists, h3, hneg, hex, probe_events]
  · have := hr d hd
    simp [h2] at this

theorem gen_unique_slug_loop_skip (env : Env) (tq cq : String) (n : Nat) :
    ∀ (K fuel : Nat) (slug : List Char) (w : World), n < slug.length →
      (∀ j, j < K * n → (env.pg_strong_random (w.rnd_calls + j)).isSome = true) →
      (∀ k, k < K →
        0 ≤ (env.SPI_execute (w.spi_calls + k) (probe_query tq cq
            (env.quote_literal_cstr (candidate env n (w.rnd_calls + k * n)))) true 1).1
        ∧ 0 < (env.SPI_execute (w.spi_calls + k) (probe_query tq cq
            (env.quote_literal_cstr (candidate env n (w.rnd_calls + k * n)))) true 1).2) →
      ∃ slug1, slug1.length = slug.length
        ∧ gen_unique_slug_loop env tq cq (n : Int) (K + fuel) slug w
          = gen_unique_slug_loop env tq cq (n : Int) fuel slug1
              { rnd_calls := w.rnd_calls + K * n, spi_calls := w.spi_calls + K,
                trace := w.trace ++ probe_trace env tq cq n w.rnd_calls K } := by
  intro K
  induction K with
  | zero =>
    intro fuel slug w _ _ _
    exact ⟨slug, rfl, by simp [probe_trace]⟩
  | succ K ih =>
    intro fuel slug w hL hr hex
    have hmul : (K + 1) * n = K * n + n := Nat.succ_mul K n
    obtain ⟨slug1, hl1, _, hstep⟩ := gen_unique_slug_loop_step env tq cq n (K + fuel) slug w hL
      (fun j hj => hr j (by omega))
    have h0 := hex 0 (by omega)
    simp only [Nat.zero_mul, Nat.add_zero] at h0
    rw [if_neg (by omega), if_pos h0.2] at hstep
    obtain ⟨slug2, hl2, hrest⟩ := ih fuel slug1
      { rnd_calls := w.rnd_calls + n, spi_calls := w.spi_calls + 1,
        trace := w.trace ++ probe_events env tq cq (candidate env n w.rnd_calls) }
      (by omega)
      (by
        intro j hj
        have := hr (n + j) (by omega)
        simpa [Nat.add_assoc] using this)
      (by
        intro k hk
        have := hex (k + 1) (by omega)
        simp only [Nat.succ_mul] at this
        have e1 : w.spi_calls + 1 + k = w.spi_calls + (k + 1) := by omega
        have e2 : w.rnd_calls + n + k * n = w.rnd_calls + (k * n + n) := by omega
        simpa [e1, e2] using this)
    refine ⟨slug2, by omega, ?_⟩
    rw [show K + 1 + fuel = (K + fuel) + 1 by omega, hstep, hrest]
    congr 1
    simp [probe_trace, hmul]
    omega

theorem executed_append (s t : List Event) : executed (s ++ t) = executed s ++ executed t := by
  simp [executed, List.filterMap_append]

theorem executed_probe_trace (env : Env) (tq cq : String) (n : Nat) :
    ∀ (p c : Nat), executed (probe_trace env tq cq n c p)
      = (List.range p).map (fun k =>
          probe_query tq cq (env.quote_literal_cstr (candidate env n (c + k * n)))) := by
  intro p
  induction p with
  | zero => intro c; simp [probe_trace, executed]
  | succ p ih =>
    intro c
    rw [probe_trace, executed_append, ih, List.range_succ_eq_map, List.map_cons,
      List.map_map]
    have e : ∀ k, c + n + k * n = c + (k + 1) * n := by
      intro k; rw [Nat.succ_mul]; omega
    simp [executed, probe_events, Function.comp_def, e]

theorem probe_trace_succ (env : Env) (tq cq : String) (n : Nat) :
    ∀ (p c : Nat), probe_trace env tq cq n c (p + 1)
      = probe_trace env tq cq n c p ++ probe_events env tq cq (candidate env n (c + p * n)) := by
  intro p
  induction p with
  | zero => intro c; simp [probe_trace]
  | succ p ih =>
    intro c
    rw [probe_trace, ih (c + n), probe_trace, List.append_assoc]
    rw [show c + n + p * n = c + (p + 1) * n by rw [Nat.succ_mul]; omega]

theorem probe_trace_no_finish (env : Env) (tq cq : String) (n : Nat) :
    ∀ (p c : Nat), Event.SPI_finish ∉ probe_trace env tq cq n c p := by
  intro p
  induction p with
  | zero => intro c; simp [probe_trace]
  | succ p ih => intro c; simp [probe_trace, probe_events, ih]

/-- C1: for a length from 1 to 256, a connection that succeeds and a random
source that answers the requests made: if the first `K` probes report a row
and the next one reports none (all with a status that is not negative), then
with at least `K + 1` iterations allowed `gen_unique_slug` returns the
candidate number `K` (counting from 0), the one whose probe reported no row,
after exactly `K + 1` executed queries, those of the candidates 0 to `K` in
order. -/
theorem gen_unique_slug_first_absent (env : Env) (tbl col : String) (len : Int)
    (K fuel : Nat) (h1 : 1 ≤ len) (h2 : len ≤ 256)
    (hc : env.SPI_connect = SPI_OK_CONNECT)
    (hrnd : ∀ j, j < (K + 1) * len.toNat → (env.pg_strong_random j).isSome = true)
    (hex : ∀ k, k < K →
      0 ≤ (env.SPI_execute k (probe_query (env.quote_ident tbl) (env.quote_ident col)
          (env.quote_literal_cstr (candidate env len.toNat (k * len.toNat)))) true 1).1
      ∧ 0 < (env.SPI_execute k (probe_query (env.quote_ident tbl) (env.quote_ident col)
          (env.quote_literal_cstr (candidate env len.toNat (k * len.toNat)))) true 1).2)
    (habs :
      0 ≤ (env.SPI_execute K (probe_query (env.quote_ident tbl) (env.quote_ident col)
          (env.quote_literal_cstr (candidate env len.toNat (K * len.toNat)))) true 1).1
      ∧ (env.SPI_execute K (probe_query (env.quote_ident tbl) (env.quote_ident col)
          (env.quote_literal_cstr (candidate env len.toNat (K * len.toNat)))) true 1).2 = 0)
    (hfuel : K + 1 ≤ fuel) :
    ∃ w, gen_unique_slug env fuel tbl col len
        = .ok (candidate env len.toNat (K * len.toNat)) w
      ∧ w.spi_calls = K + 1
      ∧ w.rnd_calls = (K + 1) * len.toNat
      ∧ executed w.trace = (List.range (K + 1)).map (fun k =>
          probe_query (env.quote_ident tbl) (env.quote_ident col)
            (env.quote_literal_cstr (candidate env len.toNat (k * len.toNat))))
      ∧ w.trace = [Event.quote_ident tbl, Event.quote_ident col, Event.SPI_connect]
          ++ probe_trace env (env.quote_ident tbl) (env.quote_ident col) len.toNat 0 (K + 1)
          ++ [Event.SPI_finish] := by
  obtain ⟨n, rfl⟩ := Int.eq_ofNat_of_zero_le (show 0 ≤ len by omega)
  simp only [Int.toNat_ofNat] at hrnd hex habs ⊢
  have hmul : (K + 1) * n = K * n + n := Nat.succ_mul K n
  obtain ⟨f, rfl⟩ : ∃ f, fuel = K + (f + 1) := ⟨fuel - K - 1, by omega⟩
  obtain ⟨slug1, hl1, hpre⟩ := gen_unique_slug_loop_skip env (env.quote_ident tbl)
    (env.quote_ident col) n K (f + 1) ((List.range (MAX_SLUG_LENGTH + 1)).map env.stack)
    (loop_start tbl col) (by simp [MAX_SLUG_LENGTH]; omega)
    (by intro j hj; simpa [loop_start] using hrnd j (by omega))
    (by intro k hk; simpa [loop_start] using hex k hk)
  obtain ⟨slug2, _, hcs, hstep⟩ := gen_unique_slug_loop_step env (env.quote_ident tbl)
    (env.quote_ident col) n f slug1
    { rnd_calls := (loop_start tbl col).rnd_calls + K * n,
      spi_calls := (loop_start tbl col).spi_calls + K,
      trace := (loop_start tbl col).trace
        ++ probe_trace env (env.quote_ident tbl) (env.quote_ident col) n
            (loop_start tbl col).rnd_calls K }
    (by simp [MAX_SLUG_LENGTH] at hl1; omega)
    (by intro j hj; simpa [loop_start] using hrnd (K * n + j) (by omega))
  simp only [loop_start, Nat.zero_add] at hstep hcs hpre
  rw [if_neg (by omega), if_neg (by omega)] at hstep
  rw [gen_unique_slug_connected env _ tbl col n (by omega) (by omega) hc]
  simp only [loop_start]
  rw [hpre, hstep]
  refine ⟨{ rnd_calls := K * n + n, spi_calls := K + 1,
            trace := [Event.quote_ident tbl, Event.quote_ident col, Event.SPI_connect]
              ++ probe_trace env (env.quote_ident tbl) (env.quote_ident col) n 0 K
              ++ probe_events env (env.quote_ident tbl) (env.quote_ident col)
                  (candidate env n (K * n))
              ++ [Event.SPI_finish] }, ?_, rfl, ?_, ?_, ?_⟩
  · simp only [hcs]
  · simp only []; omega
  · have hpt := probe_trace_succ env (env.quote_ident tbl) (env.quote_ident col) n K 0
    simp only [Nat.zero_add] at hpt
    have e1 : executed [Event.quote_ident tbl, Event.quote_ident col, Event.SPI_connect]
        = [] := rfl
    have e2 : executed [Event.SPI_finish] = [] := rfl
    simp only [executed_append, e1, e2, List.nil_append, List.append_nil]
    rw [← executed_append, ← hpt, executed_probe_trace]
    simp
  · have hpt := probe_trace_succ env (env.quote_ident tbl) (env.quote_ident col) n K 0
    simp only [Nat.zero_add] at hpt
    rw [hpt]
    simp only [List.append_assoc]


theorem gen_unique_slug_first_absent_witness :
    ∃ w, gen_unique_slug env_demo 5 "users" "slug" 8
        = .ok (candidate env_demo (8 : Int).toNat (2 * (8 : Int).toNat)) w
      ∧ w.spi_calls = 2 + 1
      ∧ w.rnd_calls = (2 + 1) * (8 : Int).toNat
      ∧ executed w.trace = (List.range (2 + 1)).map (fun k =>
          probe_query (env_demo.quote_ident "users") (env_demo.quote_ident "slug")
            (env_demo.quote_literal_cstr
              (candidate env_demo (8 : Int).toNat (k * (8 : Int).toNat))))
      ∧ w.trace = [Event.quote_ident "users", Event.quote_ident "slug", Event.SPI_connect]
          ++ probe_trace env_demo (env_demo.quote_ident "users") (env_demo.quote_ident "slug")
              (8 : Int).toNat 0 (2 + 1)
          ++ [Event.SPI_finish] :=
  gen_unique_slug_first_absent env_demo "users" "slug" 8 2 5 (by decide) (by decide) rfl
    (fun _ _ => rfl)
    (fun k hk => by simp [env_demo, hk])
    (by simp [env_demo])
    (by decide)

/-- C7: for a length from 1 to 256, a connection that succeeds, a random
source that never fails and a storage that reports a row for every probe (with
a status that is not negative): whatever the number `n` of iterations allowed,
`gen_unique_slug` is still in its loop after them, having executed exactly `n`
queries; it has neither returned nor failed. -/
theorem gen_unique_slug_always_exists (env : Env) (tbl col : String) (len : Int)
    (h1 : 1 ≤ len) (h2 : len ≤ 256)
    (hc : env.SPI_connect = SPI_OK_CONNECT)
    (hrnd : ∀ j, (env.pg_strong_random j).isSome = true)
    (hex : ∀ k q, 0 ≤ (env.SPI_execute k q true 1).1 ∧ 0 < (env.SPI_execute k q true 1).2)
    (n : Nat) :
    ∃ w, gen_unique_slug env n tbl col len = .running w
      ∧ w.spi_calls = n
      ∧ (executed w.trace).length = n
      ∧ w.rnd_calls = n * len.toNat
      ∧ Event.SPI_finish ∉ w.trace := by
  obtain ⟨m, rfl⟩ := Int.eq_ofNat_of_zero_le (show 0 ≤ len by omega)
  simp only [Int.toNat_ofNat]
  obtain ⟨slug1, _, hpre⟩ := gen_unique_slug_loop_skip env (env.quote_ident tbl)
    (env.quote_ident col) m n 0 ((List.range (MAX_SLUG_LENGTH + 1)).map env.stack)
    (loop_start tbl col) (by simp [MAX_SLUG_LENGTH]; omega)
    (fun j _ => hrnd _) (fun k _ => hex _ _)
  rw [gen_unique_slug_connected env _ tbl col m (by omega) (by omega) hc]
  rw [Nat.add_zero] at hpre
  rw [hpre]
  simp only [gen_unique_slug_loop, loop_start, Nat.zero_add]
  refine ⟨_, rfl, rfl, ?_, rfl, ?_⟩
  · simp only [executed_append, executed_probe_trace, List.length_append, List.length_map,
      List.length_range]
    simp [executed]
  · simp [probe_trace_no_finish]

theorem gen_unique_slug_always_exists_witness :
    ∃ w, gen_unique_slug env_always_exists 1000 "users" "slug" 8 = .running w
      ∧ w.spi_calls = 1000
      ∧ (executed w.trace).length = 1000
      ∧ w.rnd_calls = 1000 * (8 : Int).toNat
      ∧ Event.SPI_finish ∉ w.trace :=
  gen_unique_slug_always_exists env_always_exists "users" "slug" 8 (by decide) (by decide)
    rfl (fun _ => rfl)
    (fun _ _ => ⟨(by decide : (0 : Int) ≤ 5), (by decide : 0 < 1)⟩) 1000

/-! ## Every run of gen_unique_slug -/

theorem gen_unique_slug_cases (env : Env) (fuel : Nat) (tbl col : String) (len : Int) :
    ((len < 1 ∨ 256 < len)
      ∧ gen_unique_slug env fuel tbl col len
        = .error .InvalidLength { rnd_calls := 0, spi_calls := 0, trace := [] })
    ∨ (1 ≤ len ∧ len ≤ 256 ∧ env.SPI_connect ≠ SPI_OK_CONNECT
      ∧ gen_unique_slug env fuel tbl col len = .error .ConnectFailed (loop_start tbl col))
    ∨ (1 ≤ len ∧ len ≤ 256 ∧ env.SPI_connect = SPI_OK_CONNECT
      ∧ ∃ o, LoopPost env (env.quote_ident tbl) (env.quote_ident col) len.toNat fuel
            (loop_start tbl col) o
          ∧ gen_unique_slug env fuel tbl col len = finish o) := by
  by_cases hv : len < 1 ∨ 256 < len
  · left
    exact ⟨hv, invalid_length_outcome env fuel tbl col len hv⟩
  · right
    obtain ⟨n, rfl⟩ := Int.eq_ofNat_of_zero_le (show 0 ≤ len by omega)
    by_cases hc : env.SPI_connect = SPI_OK_CONNECT
    · right
      refine ⟨by omega, by omega, hc, _, gen_unique_slug_post env fuel tbl col n (by omega), ?_⟩
      rw [gen_unique_slug_connected env fuel tbl col n (by omega) (by omega) hc]
      rfl
    · left
      exact ⟨by omega, by omega, hc,
        gen_unique_slug_connect_failed env fuel tbl col n (by omega) (by omega) hc⟩

theorem finish_world (o : Outcome (List Char)) :
    (finish o).world.rnd_calls = o.world.rnd_calls
      ∧ (finish o).world.spi_calls = o.world.spi_calls := by
  cases o <;> simp [finish, Outcome.world]

/-- C8: if the request number `m` for a random byte is one that fails and a
run of `gen_unique_slug` makes that request, then the run ends with the error
`RandomSourceUnavailable` and that request is the last one made; the queries
executed are exactly those of the `m / len` candidates completed before it, so
the candidate left unfinished was never probed, and no `SPI_finish` follows. -/
theorem gen_unique_slug_random_failure (env : Env) (fuel : Nat) (tbl col : String)
    (len : Int) (m : Nat) (hfail : env.pg_strong_random m = none)
    (hreq : m < (gen_unique_slug env fuel tbl col len).world.rnd_calls) :
    ∃ w, gen_unique_slug env fuel tbl col len = .error .RandomSourceUnavailable w
      ∧ w.rnd_calls = m + 1
      ∧ w.spi_calls = m / len.toNat
      ∧ executed w.trace = (List.range (m / len.toNat)).map (fun k =>
          probe_query (env.quote_ident tbl) (env.quote_ident col)
            (env.quote_literal_cstr (candidate env len.toNat (k * len.toNat))))
      ∧ (∀ k, k < m / len.toNat → k * len.toNat + len.toNat ≤ m) := by
  rcases gen_unique_slug_cases env fuel tbl col len
    with ⟨_, e⟩ | ⟨_, _, _, e⟩ | ⟨h1, _, _, o, hp, e⟩
  · rw [e] at hreq; simp [Outcome.world] at hreq
  · rw [e] at hreq; simp [Outcome.world, loop_start] at hreq
  · rw [e] at hreq ⊢
    rw [(finish_world o).1] at hreq
    obtain ⟨p, _, hs, ht, hr, hm⟩ := hp
    simp only [loop_start, Nat.zero_add] at hs ht hr hm
    have hno : ∀ j, j < p * len.toNat → j ≠ m := by
      intro j hj hjm
      have := hr j hj
      rw [hjm, hfail] at this
      simp at this
    cases o with
    | ok a w =>
      simp only [Outcome.world] at hreq
      exact absurd rfl (hno m (by omega))
    | running w =>
      simp only [Outcome.world] at hreq
      exact absurd rfl (hno m (by omega))
    | outOfBounds w => exact hm.elim
    | error e1 w =>
      simp only [Outcome.world] at hreq hs ht
      rcases hm with ⟨rfl, d, hd, hw, _, hbefore⟩ | ⟨r, _, _, _, hw⟩
      · have hge : p * len.toNat ≤ m := by
          by_contra hlt
          exact absurd rfl (hno m (by omega))
        have hmd : m = p * len.toNat + d := by
          by_contra hne
          have := hbefore (m - p * len.toNat) (by omega)
          rw [show p * len.toNat + (m - p * len.toNat) = m by omega, hfail] at this
          simp at this
        have hdiv : m / len.toNat = p := by
          apply Nat.div_eq_of_lt_le
          · omega
          · rw [Nat.succ_mul]; omega
        refine ⟨w, rfl, by omega, by omega, ?_, ?_⟩
        · rw [ht, executed_append, executed_probe_trace, hdiv]
          simp [executed]
        · intro k hk
          rw [hdiv] at hk
          have : (k + 1) * len.toNat ≤ p * len.toNat := Nat.mul_le_mul_right _ (by omega)
          rw [Nat.succ_mul] at this
          omega
      · exact absurd rfl (hno m (by omega))

set_option maxRecDepth 100000 in
theorem gen_unique_slug_random_failure_witness :
    ∃ w, gen_unique_slug env_random_fails 5 "t" "c" 3 = .error .RandomSourceUnavailable w
      ∧ w.rnd_calls = 4 + 1
      ∧ w.spi_calls = 4 / (3 : Int).toNat
      ∧ executed w.trace = (List.range (4 / (3 : Int).toNat)).map (fun k =>
          probe_query (env_random_fails.quote_ident "t") (env_random_fails.quote_ident "c")
            (env_random_fails.quote_literal_cstr
              (candidate env_random_fails (3 : Int).toNat (k * (3 : Int).toNat))))
      ∧ (∀ k, k < 4 / (3 : Int).toNat → k * (3 : Int).toNat + (3 : Int).toNat ≤ 4) :=
  gen_unique_slug_random_failure env_random_fails 5 "t" "c" 3 4 rfl (by decide)

end PgUniqueSlug
